import Mathlib

/-!
Verification development for the drug-database load pipeline
(`backend/database/load_data.py`).

The pipeline is embedded shallowly:

* CSV cells are modelled as the `String` produced by Python's `str()` on the
  cell value (a missing column defaults to `""`; cells fed to the date and
  numeric parsers are modelled as `Option String`, `none` standing for a
  missing/NaN value caught by `pd.isna`).
* `None` / SQL `NULL` is `Option.none`; fallible parses return `Option`.
* Database tables are lists of rows; the surrogate `id` column (which the
  deduplication SQL compares with `<`) is an explicit `Nat` paired with the
  row, assigned in insertion order.
* A decimal value produced by Python's `float(...)` is represented by the
  validated cleaned numeric text, since no verified property depends on
  floating-point arithmetic, only on whether the parse succeeds.
-/

namespace DrugDB

/-- Characters stripped by Python's `str.strip()` (ASCII whitespace). -/
def isPyWs (c : Char) : Bool :=
  c = ' ' || c = '\t' || c = '\n' || c = '\r' || c = '\x0b' || c = '\x0c'

/-- Strip leading and trailing whitespace from a character list. -/
def pyStripList (cs : List Char) : List Char :=
  ((cs.dropWhile isPyWs).reverse.dropWhile isPyWs).reverse

/-- Python `s.strip()`. -/
def pyStrip (s : String) : String :=
  ⟨pyStripList s.data⟩

/-- Python `s.replace(old, '')` for a single character `old`. -/
def removeChar (old : Char) (s : String) : String :=
  ⟨s.data.filter (fun c => c ≠ old)⟩

/-- Numeric value of a decimal digit character. -/
def digitVal (c : Char) : Nat :=
  c.toNat - '0'.toNat

/-- Python `s.zfill(w)`: left-pad with zeros to width `w`; a leading `+` or
`-` sign stays in front of the inserted zeros; a string already at least `w`
long is returned unchanged. -/
def zfill (s : String) (w : Nat) : String :=
  if w ≤ s.length then s
  else
    match s.data with
    | c :: cs =>
        if c = '+' ∨ c = '-' then ⟨c :: (List.replicate (w - s.length) '0' ++ cs)⟩
        else ⟨List.replicate (w - s.length) '0' ++ s.data⟩
    | [] => ⟨List.replicate w '0'⟩

/-- `zero_pad` from the loader: `None` input and blank-after-strip input give
`None`; otherwise the stripped text is `zfill`ed to the requested length. -/
def zero_pad (code : Option String) (length : Nat) : Option String :=
  match code with
  | none => none
  | some c =>
      let s := pyStrip c
      if s = "" then none else some (zfill s length)

/-- Calendar date as produced by `datetime.strptime(...).date()`. -/
structure Date where
  year : Nat
  month : Nat
  day : Nat
deriving DecidableEq, Repr

/-- Gregorian leap-year test used by `datetime.date` validity. -/
def isLeap (y : Nat) : Bool :=
  (y % 4 = 0 && y % 100 ≠ 0) || y % 400 = 0

/-- Number of days in a month, per `datetime.date` validity checking. -/
def daysInMonth (y m : Nat) : Nat :=
  if m = 2 then (if isLeap y then 29 else 28)
  else if m = 4 ∨ m = 6 ∨ m = 9 ∨ m = 11 then 30
  else 31

/-- One-or-two-digit numeric field of `strptime`: the `%m` pattern
`1[0-2]|0[1-9]|[1-9]` (with `maxv = 12`) and the `%d` pattern
`3[01]|[12]\d|0[1-9]|[1-9]` (with `maxv = 31`).  Two digits are consumed when
they form a value in `1..maxv`; otherwise a single nonzero digit. -/
def parse2or1 (maxv : Nat) : List Char → Option (Nat × List Char)
  | c1 :: c2 :: rest =>
      if c1.isDigit && c2.isDigit
          && decide (1 ≤ 10 * digitVal c1 + digitVal c2)
          && decide (10 * digitVal c1 + digitVal c2 ≤ maxv) then
        some (10 * digitVal c1 + digitVal c2, rest)
      else if c1.isDigit && decide (1 ≤ digitVal c1) then
        some (digitVal c1, c2 :: rest)
      else none
  | [c1] =>
      if c1.isDigit && decide (1 ≤ digitVal c1) then some (digitVal c1, []) else none
  | [] => none

/-- The `%Y-%m-%d` pattern match of `strptime`: exactly four digits, a dash,
a one-or-two-digit month, a dash, a one-or-two-digit day consuming the whole
input; returns the numeric year, month and day fields. -/
def strptimeYMD : List Char → Option (Nat × Nat × Nat)
  | y1 :: y2 :: y3 :: y4 :: '-' :: rest =>
      if y1.isDigit && y2.isDigit && y3.isDigit && y4.isDigit then
        match parse2or1 12 rest with
        | some (m, '-' :: rest2) =>
            match parse2or1 31 rest2 with
            | some (d, []) =>
                some (1000 * digitVal y1 + 100 * digitVal y2 + 10 * digitVal y3
                  + digitVal y4, m, d)
            | _ => none
        | _ => none
      else none
  | _ => none

/-- `parse_date` from the loader: `pd.isna` or blank gives `None`; otherwise
`datetime.strptime(stripped, '%Y-%m-%d').date()` with every failure caught —
`datetime.date` additionally rejects year `0` and days beyond the month
length. -/
def parse_date (v : Option String) : Option Date :=
  match v with
  | none => none
  | some s =>
      if pyStrip s = "" then none
      else
        match strptimeYMD (pyStrip s).data with
        | some (y, m, d) =>
            if 1 ≤ y ∧ d ≤ daysInMonth y m then some ⟨y, m, d⟩ else none
        | none => none

/-- Digit run with optional single underscores between digits, as accepted
inside Python numeric literals parsed by `int()` and `float()`. -/
def digitsU : List Char → Bool
  | [] => false
  | c :: rest => c.isDigit && digitsURest rest
where
  digitsURest : List Char → Bool
    | [] => true
    | '_' :: d :: r => d.isDigit && digitsURest r
    | '_' :: [] => false
    | d :: r => d.isDigit && digitsURest r

/-- Numeric value of a digit run, ignoring underscores. -/
def valOfDigits (cs : List Char) : Nat :=
  cs.foldl (fun a c => if c.isDigit then 10 * a + digitVal c else a) 0

/-- Python `int(s)` on an already-stripped string: optional sign then digits
(with underscore grouping); anything else raises, modelled as `none`. -/
def pyIntOfString (s : String) : Option Int :=
  match s.data with
  | '+' :: rest => if digitsU rest then some ((valOfDigits rest : Nat) : Int) else none
  | '-' :: rest => if digitsU rest then some (-((valOfDigits rest : Nat) : Int)) else none
  | cs => if digitsU cs then some ((valOfDigits cs : Nat) : Int) else none

/-- `parse_int` from the loader: `pd.isna` or blank gives `None`; commas are
removed, the rest stripped and fed to `int()`, every failure caught. -/
def parse_int (v : Option String) : Option Int :=
  match v with
  | none => none
  | some s =>
      if pyStrip s = "" then none
      else
        let cleaned := pyStrip (removeChar ',' s)
        if cleaned = "" then none else pyIntOfString cleaned

/-- Split a character list at the first occurrence of a dot. -/
def splitDot : List Char → (List Char × Option (List Char))
  | [] => ([], none)
  | '.' :: rest => ([], some rest)
  | c :: rest =>
      let (pre, post) := splitDot rest
      (c :: pre, post)

/-- Split a character list at the first occurrence of `e`/`E`. -/
def splitE : List Char → (List Char × Option (List Char))
  | [] => ([], none)
  | 'e' :: rest => ([], some rest)
  | 'E' :: rest => ([], some rest)
  | c :: rest =>
      let (pre, post) := splitE rest
      (c :: pre, post)

/-- Mantissa of a Python float literal: `digits`, `digits.`, `digits.digits`,
or `.digits`. -/
def mantissaValid (cs : List Char) : Bool :=
  match splitDot cs with
  | (pre, none) => digitsU pre
  | (pre, some post) =>
      (digitsU pre && (post.isEmpty || digitsU post)) || (pre.isEmpty && digitsU post)

/-- Exponent part of a Python float literal: optional sign then digits. -/
def expValid (cs : List Char) : Bool :=
  match cs with
  | '+' :: rest => digitsU rest
  | '-' :: rest => digitsU rest
  | _ => digitsU cs

/-- Unsigned body accepted by Python `float()`: `inf`, `infinity`, `nan`
(case-insensitive) or mantissa with optional exponent. -/
def floatBody (cs : List Char) : Bool :=
  let lower := cs.map Char.toLower
  if lower = "inf".data || lower = "infinity".data || lower = "nan".data then true
  else
    match splitE cs with
    | (mant, none) => mantissaValid mant
    | (mant, some ex) => mantissaValid mant && expValid ex

/-- Whether Python `float(s)` succeeds on an already-stripped string. -/
def pyFloatValid (s : String) : Bool :=
  match s.data with
  | '+' :: rest => floatBody rest
  | '-' :: rest => floatBody rest
  | cs => floatBody cs

/-- `parse_decimal` from the loader: `pd.isna` or blank gives `None`; `$`,
commas and spaces are removed, the rest stripped and fed to `float()`, every
failure caught.  The resulting float value is represented by its validated
cleaned text. -/
def parse_decimal (v : Option String) : Option String :=
  match v with
  | none => none
  | some s =>
      if pyStrip s = "" then none
      else
        let cleaned := pyStrip (removeChar ' ' (removeChar ',' (removeChar '$' s)))
        if cleaned = "" then none
        else if pyFloatValid cleaned then some cleaned else none

/-- Python `str(x) or None` used by the loaders on text cells. -/
def orNone (s : String) : Option String :=
  if s = "" then none else some s

/-! ## Table rows and SQL equality -/

/-- SQL plain equality `a = b`: true only when both sides are non-NULL and
equal (used by the dedup SQL on `appl_no` and `ingredient`, and by the
aggregate UPDATE joins). -/
def sqlEq {α : Type} [DecidableEq α] : Option α → Option α → Bool
  | some a, some b => decide (a = b)
  | _, _ => false

/-- Null-safe equality `a = b OR (a IS NULL AND b IS NULL)` as written in the
dedup SQL for every other column. -/
def nsEq {α : Type} [DecidableEq α] : Option α → Option α → Bool
  | some a, some b => decide (a = b)
  | none, none => true
  | _, _ => false

/-- Row of the `products` table (business columns plus the derived
`number_of_approvals`; the surrogate `id` is carried outside the row). -/
structure ProductRow where
  appl_no : Option String
  appl_type : Option String
  ingredient : Option String
  dosage : Option String
  form : Option String
  route : Option String
  trade_name : Option String
  applicant : Option String
  strength : Option String
  te_code : Option String
  approval_date : Option Date
  rld : Option String
  rs : Option String
  type : Option String
  applicant_full_name : Option String
  number_of_approvals : Option Nat
deriving DecidableEq, Repr

/-- Row of the `exclusivity` table. -/
structure ExclusivityRow where
  appl_no : Option String
  appl_type : Option String
  ingredient : Option String
  dosage : Option String
  form : Option String
  route : Option String
  trade_name : Option String
  strength : Option String
  exclusivity_code : Option String
  exclusivity_date : Option Date
deriving DecidableEq, Repr

/-- Row of the `patent` table. -/
structure PatentRow where
  appl_no : Option String
  appl_type : Option String
  ingredient : Option String
  dosage : Option String
  form : Option String
  route : Option String
  trade_name : Option String
  applicant : Option String
  strength : Option String
  patent_no : Option String
  patent_expire_date_text : Option String
  drug_substance_flag : Option String
  drug_product_flag : Option String
  patent_use_code : Option String
  submission_date : Option Date
deriving DecidableEq, Repr

/-- Row of the `sales` table (decimal columns carry the validated numeric
text standing for the float value). -/
structure SalesRow where
  appl_no : Option String
  ingredient : Option String
  route : Option String
  route_extended : Option String
  dosage : Option String
  manufacturer : Option String
  strength : Option String
  pack_quantity : Option Int
  ndc_number : Option String
  labeler_code : Option String
  product_code : Option String
  sales : Option String
  packs : Option Int
  quantity : Option Int
  wac : Option String
  price : Option String
  number_of_sellers : Option Nat
deriving DecidableEq, Repr

/-- Join condition of the products dedup DELETE, exactly as in the SQL:
plain `=` on `appl_no` and `ingredient`, null-safe on every other column
including `number_of_approvals`. -/
def productsDup (p1 p2 : ProductRow) : Bool :=
  sqlEq p1.appl_no p2.appl_no
  && nsEq p1.appl_type p2.appl_type
  && sqlEq p1.ingredient p2.ingredient
  && nsEq p1.dosage p2.dosage
  && nsEq p1.form p2.form
  && nsEq p1.route p2.route
  && nsEq p1.trade_name p2.trade_name
  && nsEq p1.applicant p2.applicant
  && nsEq p1.strength p2.strength
  && nsEq p1.te_code p2.te_code
  && nsEq p1.approval_date p2.approval_date
  && nsEq p1.rld p2.rld
  && nsEq p1.rs p2.rs
  && nsEq p1.type p2.type
  && nsEq p1.applicant_full_name p2.applicant_full_name
  && nsEq p1.number_of_approvals p2.number_of_approvals

/-- Join condition of the exclusivity dedup DELETE. -/
def exclusivityDup (e1 e2 : ExclusivityRow) : Bool :=
  sqlEq e1.appl_no e2.appl_no
  && nsEq e1.appl_type e2.appl_type
  && sqlEq e1.ingredient e2.ingredient
  && nsEq e1.dosage e2.dosage
  && nsEq e1.form e2.form
  && nsEq e1.route e2.route
  && nsEq e1.trade_name e2.trade_name
  && nsEq e1.strength e2.strength
  && nsEq e1.exclusivity_code e2.exclusivity_code
  && nsEq e1.exclusivity_date e2.exclusivity_date

/-- Join condition of the patent dedup DELETE. -/
def patentDup (t1 t2 : PatentRow) : Bool :=
  sqlEq t1.appl_no t2.appl_no
  && nsEq t1.appl_type t2.appl_type
  && sqlEq t1.ingredient t2.ingredient
  && nsEq t1.dosage t2.dosage
  && nsEq t1.form t2.form
  && nsEq t1.route t2.route
  && nsEq t1.trade_name t2.trade_name
  && nsEq t1.applicant t2.applicant
  && nsEq t1.strength t2.strength
  && nsEq t1.patent_no t2.patent_no
  && nsEq t1.patent_expire_date_text t2.patent_expire_date_text
  && nsEq t1.drug_substance_flag t2.drug_substance_flag
  && nsEq t1.drug_product_flag t2.drug_product_flag
  && nsEq t1.patent_use_code t2.patent_use_code
  && nsEq t1.submission_date t2.submission_date

/-- The claim's duplicate notion for products, rendered from the spec's
words: every business column, `appl_no` and `ingredient` included, compared
null-safely. -/
def specNullSafeDupProducts (p1 p2 : ProductRow) : Bool :=
  nsEq p1.appl_no p2.appl_no
  && nsEq p1.appl_type p2.appl_type
  && nsEq p1.ingredient p2.ingredient
  && nsEq p1.dosage p2.dosage
  && nsEq p1.form p2.form
  && nsEq p1.route p2.route
  && nsEq p1.trade_name p2.trade_name
  && nsEq p1.applicant p2.applicant
  && nsEq p1.strength p2.strength
  && nsEq p1.te_code p2.te_code
  && nsEq p1.approval_date p2.approval_date
  && nsEq p1.rld p2.rld
  && nsEq p1.rs p2.rs
  && nsEq p1.type p2.type
  && nsEq p1.applicant_full_name p2.applicant_full_name
  && nsEq p1.number_of_approvals p2.number_of_approvals

/-- The dedup DELETE (`DELETE x1 FROM t x1 INNER JOIN t x2 WHERE x1.id >
x2.id AND <dup columns>`): a row is deleted exactly when the original table
holds a lower-id row matching the join condition. -/
def remove_duplicates_table {α : Type} (dup : α → α → Bool) (tbl : List (Nat × α)) :
    List (Nat × α) :=
  tbl.filter (fun p1 => ! tbl.any (fun p2 => decide (p2.1 < p1.1) && dup p1.2 p2.2))

/-! ## Loaders -/

/-- Source row of `products.csv`, cells as stringified by `str(row.get(c, ''))`
(text columns) or kept raw for `parse_date` (`none` = missing/NaN). -/
structure ProductSrcRow where
  appl_no : String
  appl_type : String
  ingredient : String
  dosage : String
  form : String
  route : String
  trade_name : String
  applicant : String
  strength : String
  te_code : String
  approval_date : Option String
  rld : String
  rs : String
  type : String
  applicant_full_name : String
deriving DecidableEq, Repr

/-- Source row of `exclusivity.csv`. -/
structure ExclusivitySrcRow where
  appl_no : String
  appl_type : String
  ingredient : String
  dosage : String
  form : String
  route : String
  trade_name : String
  strength : String
  exclusivity_code : String
  exclusivity_date : Option String
deriving DecidableEq, Repr

/-- Source row of `patent.csv`. -/
structure PatentSrcRow where
  appl_no : String
  appl_type : String
  ingredient : String
  dosage : String
  form : String
  route : String
  trade_name : String
  applicant : String
  strength : String
  patent_no : String
  patent_expire_date_text : String
  drug_substance_flag : String
  drug_product_flag : String
  patent_use_code : String
  submission_date : Option String
deriving DecidableEq, Repr

/-- Source row of `ndc.csv` as consumed by `build_ndc_lookup`. -/
structure NdcRow where
  labeler : String
  product : String
  applno : String
deriving DecidableEq, Repr

/-- Source row of `sales.csv`. -/
structure SalesSrcRow where
  labeler : String
  product : String
  ingredient : String
  route : String
  route_ext : String
  dosage : String
  manufacturer : String
  strength : String
  pack_quantity : Option String
  ndc_number : String
  sales : Option String
  packs : Option String
  quantity : Option String
  wac : Option String
  price : Option String
deriving DecidableEq, Repr

/-- Tuple built by `load_products` for one source row (`number_of_approvals`
is not in the INSERT column list, so it defaults to NULL). -/
def normalizeProductRow (r : ProductSrcRow) : ProductRow where
  appl_no := orNone r.appl_no
  appl_type := orNone r.appl_type
  ingredient := orNone r.ingredient
  dosage := orNone r.dosage
  form := orNone r.form
  route := orNone r.route
  trade_name := orNone r.trade_name
  applicant := orNone r.applicant
  strength := orNone r.strength
  te_code := orNone r.te_code
  approval_date := parse_date r.approval_date
  rld := orNone r.rld
  rs := orNone r.rs
  type := orNone r.type
  applicant_full_name := orNone r.applicant_full_name
  number_of_approvals := none

/-- Tuple built by `load_exclusivity` for one source row. -/
def normalizeExclusivityRow (r : ExclusivitySrcRow) : ExclusivityRow where
  appl_no := orNone r.appl_no
  appl_type := orNone r.appl_type
  ingredient := orNone r.ingredient
  dosage := orNone r.dosage
  form := orNone r.form
  route := orNone r.route
  trade_name := orNone r.trade_name
  strength := orNone r.strength
  exclusivity_code := orNone r.exclusivity_code
  exclusivity_date := parse_date r.exclusivity_date

/-- Tuple built by `load_patents` for one source row. -/
def normalizePatentRow (r : PatentSrcRow) : PatentRow where
  appl_no := orNone r.appl_no
  appl_type := orNone r.appl_type
  ingredient := orNone r.ingredient
  dosage := orNone r.dosage
  form := orNone r.form
  route := orNone r.route
  trade_name := orNone r.trade_name
  applicant := orNone r.applicant
  strength := orNone r.strength
  patent_no := orNone r.patent_no
  patent_expire_date_text := orNone r.patent_expire_date_text
  drug_substance_flag := orNone r.drug_substance_flag
  drug_product_flag := orNone r.drug_product_flag
  patent_use_code := orNone r.patent_use_code
  submission_date := parse_date r.submission_date

/-- Batching loop shared by `load_products`, `load_patents` and `load_sales`:
append each row to the batch, commit and clear when the batch reaches
`bs`, and commit a non-empty remainder at the end.  Returns the list of
committed batches in order. -/
def commitBatchesAux {α : Type} (bs : Nat) : List α → List α → List (List α)
  | batch, [] => if batch.isEmpty then [] else [batch]
  | batch, r :: rest =>
      let batch' := batch ++ [r]
      if bs ≤ batch'.length then batch' :: commitBatchesAux bs [] rest
      else commitBatchesAux bs batch' rest

/-- Committed batches for a whole source, starting from an empty batch. -/
def commitBatches {α : Type} (bs : Nat) (rows : List α) : List (List α) :=
  commitBatchesAux bs [] rows

/-- Commits issued by `load_products`: batches of 1000 normalized rows. -/
def load_products_commits (rows : List ProductSrcRow) : List (List ProductRow) :=
  commitBatches 1000 (rows.map normalizeProductRow)

/-- Commits issued by `load_patents`: batches of 1000 normalized rows. -/
def load_patents_commits (rows : List PatentSrcRow) : List (List PatentRow) :=
  commitBatches 1000 (rows.map normalizePatentRow)

/-- Commits issued by `load_exclusivity`: the loop never flushes (the
batch-size check is absent from this loader), so the whole normalized source
is committed as one `executemany`, an empty source included. -/
def load_exclusivity_commits (rows : List ExclusivitySrcRow) : List (List ExclusivityRow) :=
  [rows.map normalizeExclusivityRow]

/-! ## Cross-reference builder -/

/-- Lookup in the insertion-ordered association list modelling the Python
dict. -/
def lookupFind : List ((String × String) × String) → (String × String) → Option String
  | [], _ => none
  | e :: rest, k => if e.1 = k then some e.2 else lookupFind rest k

/-- `lookup[key] = appl_no` guarded by
`if key not in lookup or not lookup[key]`: a fresh key is appended, a key
whose current value is empty is overwritten in place, any other key is left
alone. -/
def ndcInsert (m : List ((String × String) × String)) (k : String × String)
    (v : String) : List ((String × String) × String) :=
  match lookupFind m k with
  | none => m ++ [(k, v)]
  | some cur => if cur = "" then m.map (fun e => if e.1 = k then (k, v) else e) else m

/-- Key/value candidate offered by one `ndc.csv` row: both codes must
zero-pad to non-empty and the stripped application number must be non-blank,
otherwise the row is skipped. -/
def ndcCandidate (r : NdcRow) : Option ((String × String) × String) :=
  match zero_pad (some r.labeler) 5, zero_pad (some r.product) 4 with
  | some lc, some pc =>
      let appl := pyStrip r.applno
      if appl = "" then none else some ((lc, pc), appl)
  | _, _ => none

/-- One iteration of the `build_ndc_lookup` loop. -/
def ndcStep (m : List ((String × String) × String)) (r : NdcRow) :
    List ((String × String) × String) :=
  match ndcCandidate r with
  | some (k, v) => ndcInsert m k v
  | none => m

/-- `build_ndc_lookup`: fold the candidate insertion over all rows. -/
def build_ndc_lookup (rows : List NdcRow) : List ((String × String) × String) :=
  rows.foldl ndcStep []

/-- First application number for key `k` among the rows, in row order,
skipping rows with empty codes or blank application numbers — the mapping
value the spec promises. -/
def specFirstApplFor (rows : List NdcRow) (k : String × String) : Option String :=
  match rows with
  | [] => none
  | r :: rest =>
      match ndcCandidate r with
      | some (k', a) => if k' = k then some a else specFirstApplFor rest k
      | none => specFirstApplFor rest k

/-! ## Sales loader -/

/-- Tuple built by `load_sales` for one source row: codes via `zero_pad`,
`appl_no` from the cross-reference mapping when both codes are present
(missing key gives NULL), `number_of_sellers` left NULL. -/
def processSalesRow (lookup : List ((String × String) × String)) (r : SalesSrcRow) :
    SalesRow :=
  let lc := zero_pad (some r.labeler) 5
  let pc := zero_pad (some r.product) 4
  let appl : Option String :=
    match lc, pc with
    | some l, some p => lookupFind lookup (l, p)
    | _, _ => none
  { appl_no := appl
    ingredient := orNone r.ingredient
    route := orNone r.route
    route_extended := orNone r.route_ext
    dosage := orNone r.dosage
    manufacturer := orNone r.manufacturer
    strength := orNone r.strength
    pack_quantity := parse_int r.pack_quantity
    ndc_number := orNone (pyStrip r.ndc_number)
    labeler_code := lc
    product_code := pc
    sales := parse_decimal r.sales
    packs := parse_int r.packs
    quantity := parse_int r.quantity
    wac := parse_decimal r.wac
    price := parse_decimal r.price
    number_of_sellers := none }

/-- Rows inserted by `load_sales`, in order (every source row is inserted). -/
def load_sales_rows (lookup : List ((String × String) × String))
    (rows : List SalesSrcRow) : List SalesRow :=
  rows.map (processSalesRow lookup)

/-- Commits issued by `load_sales`: batches of 1000 processed rows. -/
def load_sales_commits (lookup : List ((String × String) × String))
    (rows : List SalesSrcRow) : List (List SalesRow) :=
  commitBatches 1000 (load_sales_rows lookup rows)

/-! ## Aggregate populator -/

/-- `COUNT(DISTINCT appl_no)` of the `GROUP BY ingredient, dosage` group with
key `(ing, dos)` (MySQL GROUP BY places all NULLs of a column in one group,
so group keys compare with null-as-equal; NULL `appl_no` is not counted). -/
def distinctApplCount (tbl : List ProductRow) (ing dos : Option String) : Nat :=
  (((tbl.filter (fun r => decide (r.ingredient = ing) && decide (r.dosage = dos))).filterMap
      (fun r => r.appl_no)).dedup).length

/-- `populate_number_of_product_approvals`: the UPDATE joins each row to its
group row with plain `=` on `ingredient` and `dosage`, so only rows with both
non-null receive the group's distinct count; other rows keep their value. -/
def populate_number_of_product_approvals (tbl : List ProductRow) : List ProductRow :=
  tbl.map (fun r =>
    match r.ingredient, r.dosage with
    | some i, some d =>
        { r with number_of_approvals := some (distinctApplCount tbl (some i) (some d)) }
    | _, _ => r)

/-! ## Pipeline orchestrator -/

/-- Total rows inserted per table over one run. -/
structure Counts where
  products : Nat
  exclusivity : Nat
  patent : Nat
  sales : Nat
deriving DecidableEq, Repr

/-- The five extracts of a run; `none` models a file that is missing,
unreadable or wrongly encoded, so that `pd.read_csv` raises. -/
structure Extracts where
  ndc : Option (List NdcRow)
  products : Option (List ProductSrcRow)
  exclusivity : Option (List ExclusivitySrcRow)
  patents : Option (List PatentSrcRow)
  sales : Option (List SalesSrcRow)

/-- Rows inserted by a run of `main`: stages run in order (ndc lookup,
products, exclusivity, patents, sales), each loader reads its whole extract
before inserting anything, and the first read failure raises out of the
`try`, leaving the batches committed by earlier stages in place.  The later
aggregate and dedup stages insert no rows. -/
def runPipeline (e : Extracts) : Counts :=
  match e.ndc with
  | none => ⟨0, 0, 0, 0⟩
  | some ndcRows =>
      let lookup := build_ndc_lookup ndcRows
      match e.products with
      | none => ⟨0, 0, 0, 0⟩
      | some ps =>
          let pCount := ((load_products_commits ps).map List.length).sum
          match e.exclusivity with
          | none => ⟨pCount, 0, 0, 0⟩
          | some es =>
              let eCount := ((load_exclusivity_commits es).map List.length).sum
              match e.patents with
              | none => ⟨pCount, eCount, 0, 0⟩
              | some ts =>
                  let tCount := ((load_patents_commits ts).map List.length).sum
                  match e.sales with
                  | none => ⟨pCount, eCount, tCount, 0⟩
                  | some ss =>
                      ⟨pCount, eCount, tCount,
                        ((load_sales_commits lookup ss).map List.length).sum⟩

/-! ## Helper lemmas -/

theorem mem_remove_duplicates_table {α : Type} (dup : α → α → Bool)
    (tbl : List (Nat × α)) (p : Nat × α) :
    p ∈ remove_duplicates_table dup tbl ↔
      p ∈ tbl ∧ ∀ q ∈ tbl, q.1 < p.1 → dup p.2 q.2 = false := by
  simp only [remove_duplicates_table, List.mem_filter, Bool.not_eq_true',
    List.any_eq_false, Bool.and_eq_true, decide_eq_true_eq, not_and,
    Bool.not_eq_true]

/-- Sizes of the committed batches, tracked arithmetically: `b` is the
current batch length, the second argument the rows left. -/
def batchSizesAux (bs : Nat) : Nat → Nat → List Nat
  | b, 0 => if b = 0 then [] else [b]
  | b, n + 1 =>
      if bs ≤ b + 1 then (b + 1) :: batchSizesAux bs 0 n else batchSizesAux bs (b + 1) n

theorem commitBatchesAux_join {α : Type} (bs : Nat) :
    ∀ (rows batch : List α), (commitBatchesAux bs batch rows).flatten = batch ++ rows := by
  intro rows
  induction rows with
  | nil => intro batch; cases batch <;> simp [commitBatchesAux]
  | cons r rest ih =>
      intro batch
      by_cases h : bs ≤ batch.length + 1
      · simp [commitBatchesAux, h, ih]
      · simp [commitBatchesAux, h, ih]

theorem commitBatchesAux_lengths {α : Type} (bs : Nat) :
    ∀ (rows batch : List α),
      (commitBatchesAux bs batch rows).map List.length
        = batchSizesAux bs batch.length rows.length := by
  intro rows
  induction rows with
  | nil => intro batch; cases batch <;> simp [commitBatchesAux, batchSizesAux]
  | cons r rest ih =>
      intro batch
      have hlen : (batch ++ [r]).length = batch.length + 1 := by simp
      by_cases h : bs ≤ batch.length + 1
      · simp [commitBatchesAux, batchSizesAux, hlen, h, ih]
      · simp [commitBatchesAux, batchSizesAux, hlen, h, ih]

theorem commitBatchesAux_ne_nil {α : Type} (bs : Nat) :
    ∀ (rows batch : List α), ∀ b ∈ commitBatchesAux bs batch rows, b ≠ [] := by
  intro rows
  induction rows with
  | nil =>
      intro batch b hb
      cases batch with
      | nil => simp [commitBatchesAux] at hb
      | cons x xs =>
          simp [commitBatchesAux] at hb
          subst hb; simp
  | cons r rest ih =>
      intro batch b hb
      by_cases h : bs ≤ batch.length + 1
      · simp [commitBatchesAux, h] at hb
        rcases hb with hb | hb
        · subst hb; simp
        · exact ih [] b hb
      · simp [commitBatchesAux, h] at hb
        exact ih (batch ++ [r]) b hb

theorem commitBatchesAux_le {α : Type} (bs : Nat) :
    ∀ (rows batch : List α), batch.length < bs →
      ∀ b ∈ commitBatchesAux bs batch rows, b.length ≤ bs := by
  intro rows
  induction rows with
  | nil =>
      intro batch hlt b hb
      cases batch with
      | nil => simp [commitBatchesAux] at hb
      | cons x xs =>
          simp [commitBatchesAux] at hb
          subst hb; omega
  | cons r rest ih =>
      intro batch hlt b hb
      by_cases h : bs ≤ batch.length + 1
      · simp [commitBatchesAux, h] at hb
        rcases hb with hb | hb
        · subst hb
          simp only [List.length_append, List.length_singleton]
          omega
        · refine ih [] ?_ b hb
          have h0 : 0 < bs := Nat.lt_of_le_of_lt (Nat.zero_le batch.length) hlt
          simpa using h0
      · simp [commitBatchesAux, h] at hb
        refine ih (batch ++ [r]) ?_ b hb
        simp only [List.length_append, List.length_singleton]
        omega

theorem commitBatches_join {α : Type} (bs : Nat) (rows : List α) :
    (commitBatches bs rows).flatten = rows := by
  simpa using commitBatchesAux_join bs rows []

theorem commitBatches_sum {α : Type} (bs : Nat) (rows : List α) :
    ((commitBatches bs rows).map List.length).sum = rows.length := by
  rw [← List.length_flatten, commitBatches_join]

set_option maxRecDepth 100000 in
theorem batchSizes_2500 : batchSizesAux 1000 0 2500 = [1000, 1000, 500] := by decide

theorem string_ne_empty_of_length {t : String} (h : 0 < t.length) : t ≠ "" := by
  intro he
  rw [he] at h
  simp at h

theorem string_length_pos_of_ne {t : String} (h : t ≠ "") : 0 < t.length := by
  cases t with
  | mk l =>
      cases l with
      | nil => exact absurd rfl h
      | cons c cs => simp [String.length]

theorem zfill_length (s : String) (w : Nat) : (zfill s w).length = max w s.length := by
  unfold zfill
  by_cases hw : w ≤ s.length
  · rw [if_pos hw]
    omega
  · rw [if_neg hw]
    cases s with
    | mk l =>
        cases l with
        | nil =>
            simp only [String.length, List.length_replicate, List.length_nil] at hw ⊢
            omega
        | cons c cs =>
            dsimp only
            by_cases hc : c = '+' ∨ c = '-'
            · rw [if_pos hc]
              simp only [String.length, List.length_cons, List.length_append,
                List.length_replicate] at hw ⊢
              omega
            · rw [if_neg hc]
              simp only [String.length, List.length_cons, List.length_append,
                List.length_replicate] at hw ⊢
              omega

/-- Length facts about `zero_pad` on a present code. -/
theorem zero_pad_some_length {s t : String} {w : Nat}
    (h : zero_pad (some s) w = some t) : w ≤ t.length ∧ t ≠ "" := by
  unfold zero_pad at h
  by_cases hs : pyStrip s = ""
  · simp [hs] at h
  · simp only [hs, ite_false, Option.some.injEq] at h
    have hlen : t.length = max w (pyStrip s).length := h ▸ zfill_length (pyStrip s) w
    have hpos : 0 < (pyStrip s).length := string_length_pos_of_ne hs
    constructor
    · omega
    · exact string_ne_empty_of_length (by omega)

theorem lookupFind_append (m₁ m₂ : List ((String × String) × String)) (k : String × String) :
    lookupFind (m₁ ++ m₂) k =
      match lookupFind m₁ k with
      | some w => some w
      | none => lookupFind m₂ k := by
  induction m₁ with
  | nil => simp [lookupFind]
  | cons e rest ih =>
      by_cases h : e.1 = k
      · simp [lookupFind, h]
      · simp [lookupFind, h, ih]

theorem lookupFind_eq_none_iff {m : List ((String × String) × String)}
    {k : String × String} :
    lookupFind m k = none ↔ ∀ e ∈ m, e.1 ≠ k := by
  induction m with
  | nil => simp [lookupFind]
  | cons e rest ih =>
      by_cases h : e.1 = k <;> simp [lookupFind, h, ih]

theorem lookupFind_mem {m : List ((String × String) × String)}
    {k : String × String} {v : String} (h : lookupFind m k = some v) : (k, v) ∈ m := by
  induction m with
  | nil => simp [lookupFind] at h
  | cons e rest ih =>
      by_cases he : e.1 = k
      · simp only [lookupFind, he, if_pos, ite_true, Option.some.injEq] at h
        have : (k, v) = e := by
          cases e with
          | mk k' v' =>
              simp only at he h
              simp [he, h]
        rw [this]
        exact List.mem_cons_self e rest
      · simp only [lookupFind, he, ite_false] at h
        exact List.mem_cons_of_mem e (ih h)

theorem ndcCandidate_inv {r : NdcRow} {lc pc v : String}
    (h : ndcCandidate r = some ((lc, pc), v)) :
    zero_pad (some r.labeler) 5 = some lc ∧ zero_pad (some r.product) 4 = some pc
      ∧ v ≠ "" ∧ v = pyStrip r.applno := by
  unfold ndcCandidate at h
  cases h5 : zero_pad (some r.labeler) 5 with
  | none => rw [h5] at h; cases h
  | some lc' =>
      cases h4 : zero_pad (some r.product) 4 with
      | none => rw [h5, h4] at h; cases h
      | some pc' =>
          rw [h5, h4] at h
          dsimp only at h
          by_cases ha : pyStrip r.applno = ""
          · rw [if_pos ha] at h; cases h
          · rw [if_neg ha] at h
            simp only [Option.some.injEq, Prod.mk.injEq] at h
            obtain ⟨⟨h1, h2⟩, h3⟩ := h
            subst h1; subst h2; subst h3
            exact ⟨rfl, rfl, ha, rfl⟩

theorem ndcStep_values {m : List ((String × String) × String)} {r : NdcRow}
    (hm : ∀ e ∈ m, e.2 ≠ "") : ∀ e ∈ ndcStep m r, e.2 ≠ "" := by
  intro e he
  cases hc : ndcCandidate r with
  | none =>
      simp only [ndcStep, hc] at he
      exact hm e he
  | some kv =>
      obtain ⟨⟨lc, pc⟩, v⟩ := kv
      have hv : v ≠ "" := (ndcCandidate_inv hc).2.2.1
      simp only [ndcStep, hc] at he
      unfold ndcInsert at he
      cases hf : lookupFind m (lc, pc) with
      | none =>
          rw [hf] at he
          dsimp only at he
          rcases List.mem_append.mp he with h | h
          · exact hm e h
          · simp only [List.mem_singleton] at h
            rw [h]
            exact hv
      | some cur =>
          rw [hf] at he
          dsimp only at he
          have hcur : cur ≠ "" := hm _ (lookupFind_mem hf)
          rw [if_neg hcur] at he
          exact hm e he

theorem lookupFind_ndcInsert {m : List ((String × String) × String)}
    {k' k : String × String} {v : String} (hm : ∀ e ∈ m, e.2 ≠ "") :
    lookupFind (ndcInsert m k' v) k =
      match lookupFind m k with
      | some w => some w
      | none => if k' = k then some v else none := by
  unfold ndcInsert
  cases hf : lookupFind m k' with
  | none =>
      dsimp only
      rw [lookupFind_append]
      cases hk : lookupFind m k with
      | some w => rfl
      | none => simp [lookupFind]
  | some cur =>
      dsimp only
      have hcur : cur ≠ "" := hm _ (lookupFind_mem hf)
      rw [if_neg hcur]
      cases hk : lookupFind m k with
      | some w => rfl
      | none =>
          by_cases hkk : k' = k
          · subst hkk
            rw [hf] at hk
            cases hk
          · simp [hkk]

theorem build_ndc_aux :
    ∀ (rows : List NdcRow) (m : List ((String × String) × String)),
      (∀ e ∈ m, e.2 ≠ "") → ∀ k,
      lookupFind (rows.foldl ndcStep m) k =
        match lookupFind m k with
        | some w => some w
        | none => specFirstApplFor rows k := by
  intro rows
  induction rows with
  | nil =>
      intro m hm k
      simp only [List.foldl_nil, specFirstApplFor]
      cases lookupFind m k <;> rfl
  | cons r rest ih =>
      intro m hm k
      rw [List.foldl_cons, ih _ (ndcStep_values hm)]
      cases hc : ndcCandidate r with
      | none =>
          have hstep : ndcStep m r = m := by simp [ndcStep, hc]
          rw [hstep]
          simp only [specFirstApplFor, hc]
      | some kv =>
          obtain ⟨k', v⟩ := kv
          have hstep : ndcStep m r = ndcInsert m k' v := by simp [ndcStep, hc]
          rw [hstep, lookupFind_ndcInsert hm]
          simp only [specFirstApplFor, hc]
          cases hk : lookupFind m k with
          | some w => rfl
          | none =>
              by_cases hkk : k' = k
              · simp [hkk]
              · simp [hkk]

theorem ndcStep_keys_prop {P : String × String → Prop}
    {m : List ((String × String) × String)} {r : NdcRow}
    (hm : ∀ e ∈ m, P e.1)
    (hcand : ∀ k v, ndcCandidate r = some (k, v) → P k) :
    ∀ e ∈ ndcStep m r, P e.1 := by
  intro e he
  cases hc : ndcCandidate r with
  | none =>
      simp only [ndcStep, hc] at he
      exact hm e he
  | some kv =>
      obtain ⟨k, v⟩ := kv
      have hk : P k := hcand k v hc
      simp only [ndcStep, hc] at he
      unfold ndcInsert at he
      cases hf : lookupFind m k with
      | none =>
          rw [hf] at he
          dsimp only at he
          rcases List.mem_append.mp he with h | h
          · exact hm e h
          · simp only [List.mem_singleton] at h
            rw [h]
            exact hk
      | some cur =>
          rw [hf] at he
          dsimp only at he
          by_cases hcur : cur = ""
          · rw [if_pos hcur] at he
            rcases List.mem_map.mp he with ⟨e', he', hee⟩
            by_cases h1 : e'.1 = k
            · rw [if_pos h1] at hee
              rw [← hee]
              exact hk
            · rw [if_neg h1] at hee
              rw [← hee]
              exact hm e' he'
          · rw [if_neg hcur] at he
            exact hm e he

theorem ndcStep_keys_nodup {m : List ((String × String) × String)} {r : NdcRow}
    (hm : (m.map Prod.fst).Nodup) : ((ndcStep m r).map Prod.fst).Nodup := by
  cases hc : ndcCandidate r with
  | none => simpa only [ndcStep, hc] using hm
  | some kv =>
      obtain ⟨k, v⟩ := kv
      simp only [ndcStep, hc]
      unfold ndcInsert
      cases hf : lookupFind m k with
      | none =>
          dsimp only
          have hk : ∀ e ∈ m, e.1 ≠ k := lookupFind_eq_none_iff.mp hf
          simp only [List.map_append, List.map_cons, List.map_nil]
          rw [List.nodup_append]
          refine ⟨hm, List.nodup_singleton k, ?_⟩
          intro a ha hb
          rcases List.mem_map.mp ha with ⟨e, he, hae⟩
          simp only [List.mem_singleton] at hb
          exact hk e he (hae.trans hb)
      | some cur =>
          dsimp only
          by_cases hcur : cur = ""
          · rw [if_pos hcur]
            have hkeys : (m.map (fun e => if e.1 = k then (k, v) else e)).map Prod.fst
                = m.map Prod.fst := by
              rw [List.map_map]
              apply List.map_congr_left
              intro e _
              by_cases h1 : e.1 = k
              · simp [h1]
              · simp [h1]
            rw [hkeys]
            exact hm
          · rw [if_neg hcur]
            exact hm

theorem build_ndc_foldl_keys {P : String × String → Prop}
    (hcand : ∀ (r : NdcRow) (k : String × String) (v : String),
      ndcCandidate r = some (k, v) → P k) :
    ∀ (rows : List NdcRow) (m : List ((String × String) × String)),
      (∀ e ∈ m, P e.1) → ∀ e ∈ rows.foldl ndcStep m, P e.1 := by
  intro rows
  induction rows with
  | nil => intro m hm; simpa using hm
  | cons r rest ih =>
      intro m hm
      exact ih _ (ndcStep_keys_prop hm (hcand r))

theorem build_ndc_keys_nodup (rows : List NdcRow) :
    ((build_ndc_lookup rows).map Prod.fst).Nodup := by
  have aux : ∀ (rs : List NdcRow) (m : List ((String × String) × String)),
      (m.map Prod.fst).Nodup → ((rs.foldl ndcStep m).map Prod.fst).Nodup := by
    intro rs
    induction rs with
    | nil => intro m hm; simpa using hm
    | cons r rest ih =>
        intro m hm
        exact ih _ (ndcStep_keys_nodup hm)
  simpa [build_ndc_lookup] using aux rows [] (by simp)

theorem load_products_commits_sum (rows : List ProductSrcRow) :
    ((load_products_commits rows).map List.length).sum = rows.length := by
  rw [load_products_commits, commitBatches_sum, List.length_map]

theorem load_patents_commits_sum (rows : List PatentSrcRow) :
    ((load_patents_commits rows).map List.length).sum = rows.length := by
  rw [load_patents_commits, commitBatches_sum, List.length_map]

theorem load_exclusivity_commits_sum (rows : List ExclusivitySrcRow) :
    ((load_exclusivity_commits rows).map List.length).sum = rows.length := by
  simp [load_exclusivity_commits]

theorem load_sales_commits_sum (lookup : List ((String × String) × String))
    (rows : List SalesSrcRow) :
    ((load_sales_commits lookup rows).map List.length).sum = rows.length := by
  rw [load_sales_commits, commitBatches_sum, load_sales_rows, List.length_map]

/-! ## Sample rows used by concrete checks -/

/-- Products row with every column NULL. -/
def blankProductRow : ProductRow :=
  ⟨none, none, none, none, none, none, none, none, none, none, none, none,
   none, none, none, none⟩

/-- Two copies of this row are null-safe equal on every business column but
carry a NULL `appl_no`. -/
def c1Row : ProductRow :=
  { blankProductRow with ingredient := some "ING" }

/-- Row with a NULL `te_code` (all join-relevant plain-equality columns
populated). -/
def c2RowNull : ProductRow :=
  { blankProductRow with appl_no := some "A1", ingredient := some "ING" }

/-- Same row except `te_code` is populated. -/
def c2RowPop : ProductRow :=
  { c2RowNull with te_code := some "AB" }

def productSrcSample : ProductSrcRow :=
  ⟨"A1", "N", "ING", "TAB", "F", "R", "T", "APP", "S", "TE", none, "Yes",
   "Yes", "RX", "APPFULL"⟩

def exclusivitySrcSample : ExclusivitySrcRow :=
  ⟨"A1", "N", "ING", "TAB", "F", "R", "T", "S", "EC", none⟩

def salesSrcSample : SalesSrcRow :=
  ⟨"123", "4", "ING", "R", "RE", "TAB", "M", "S", none, "123-4", none, none,
   none, none, none⟩

/-- Run in which the sales extract is unreadable but the earlier four are
fine, with one products source row. -/
def cexExtracts : Extracts :=
  { ndc := some [], products := some [productSrcSample], exclusivity := some [],
    patents := some [], sales := none }

def overlongNdcRow : NdcRow := ⟨"123456", "1", "A"⟩

def aspirin1 : ProductRow :=
  { blankProductRow with appl_no := some "A1", ingredient := some "ASPIRIN", dosage := some "81MG" }

def aspirin2 : ProductRow :=
  { aspirin1 with appl_no := some "A2" }

def aspirin3 : ProductRow :=
  { aspirin1 with appl_no := some "A3" }

def aspirin4 : ProductRow :=
  { blankProductRow with appl_no := some "B1", ingredient := some "ASPIRIN", dosage := some "325MG" }

def aspirinTbl : List ProductRow := [aspirin1, aspirin2, aspirin3, aspirin4]

/-- Products row whose `ingredient` is NULL. -/
def c7NullRow : ProductRow :=
  { blankProductRow with appl_no := some "A1", dosage := some "81MG" }

/-! ## Claims -/

/-- Claim C1 (amended): for each of the three approval-derived tables the
dedup DELETE removes exactly the rows for which an earlier-inserted (lower
id) row matches the join condition — null-safe equality on every business
column except `appl_no` and `ingredient`, which the SQL compares with plain
`=` and which therefore never match when NULL on either side.  Equivalently a
row survives iff no lower-id matching row exists in the original table, so
among matching rows only the lowest-id one survives and no row without an
earlier match is deleted. -/
theorem claim1_theorem :
    (∀ (tbl : List (Nat × ProductRow)) (p : Nat × ProductRow),
        p ∈ remove_duplicates_table productsDup tbl ↔
          p ∈ tbl ∧ ∀ q ∈ tbl, q.1 < p.1 → productsDup p.2 q.2 = false)
    ∧ (∀ (tbl : List (Nat × ExclusivityRow)) (p : Nat × ExclusivityRow),
        p ∈ remove_duplicates_table exclusivityDup tbl ↔
          p ∈ tbl ∧ ∀ q ∈ tbl, q.1 < p.1 → exclusivityDup p.2 q.2 = false)
    ∧ (∀ (tbl : List (Nat × PatentRow)) (p : Nat × PatentRow),
        p ∈ remove_duplicates_table patentDup tbl ↔
          p ∈ tbl ∧ ∀ q ∈ tbl, q.1 < p.1 → patentDup p.2 q.2 = false) :=
  ⟨fun tbl p => mem_remove_duplicates_table productsDup tbl p,
   fun tbl p => mem_remove_duplicates_table exclusivityDup tbl p,
   fun tbl p => mem_remove_duplicates_table patentDup tbl p⟩

/-- Claim C1 counterexample: two identical products rows whose `appl_no` is
NULL are null-safe equal on the full business tuple, yet the dedup DELETE
keeps both, because the SQL compares `appl_no` with plain `=`, which is never
true on NULL. -/
theorem claim1_counterexample :
    specNullSafeDupProducts c1Row c1Row = true
    ∧ remove_duplicates_table productsDup [(1, c1Row), (2, c1Row)]
        = [(1, c1Row), (2, c1Row)] := by
  constructor
  · decide
  · decide

theorem claim1_witness :
    (1, c1Row) ∈ remove_duplicates_table productsDup [(1, c1Row)] :=
  (claim1_theorem.1 [(1, c1Row)] (1, c1Row)).mpr ⟨by decide, by decide⟩

/-- Column difference from the claim's wording: the column is null on one
side and populated on the other. -/
def nullVsPop {α : Type} (a b : Option α) : Prop :=
  (a = none ∧ b ≠ none) ∨ (a ≠ none ∧ b = none)

theorem nsEq_false_of_nvp {α : Type} [DecidableEq α] {a b : Option α}
    (h : nullVsPop a b) : nsEq a b = false ∧ nsEq b a = false := by
  rcases h with ⟨ha, hb⟩ | ⟨ha, hb⟩
  · subst ha
    cases b with
    | none => exact absurd rfl hb
    | some x => exact ⟨rfl, rfl⟩
  · subst hb
    cases a with
    | none => exact absurd rfl ha
    | some x => exact ⟨rfl, rfl⟩

theorem sqlEq_false_of_nvp {α : Type} [DecidableEq α] {a b : Option α}
    (h : nullVsPop a b) : sqlEq a b = false ∧ sqlEq b a = false := by
  rcases h with ⟨ha, hb⟩ | ⟨ha, hb⟩
  · subst ha
    cases b with
    | none => exact absurd rfl hb
    | some x => exact ⟨rfl, rfl⟩
  · subst hb
    cases a with
    | none => exact absurd rfl ha
    | some x => exact ⟨rfl, rfl⟩

/-- Claim C2 (amended): in each of the three approval-derived tables, two
rows that differ in any business column by being null on one side and
populated on the other are NOT treated as duplicates — the join condition is
false for that column (null-safe and plain SQL equality alike), so both rows
survive deduplication; in particular rows agreeing everywhere except exactly
one such nullable column are not collapsed. -/
theorem claim2_theorem :
    (∀ r1 r2 : ProductRow,
      (nullVsPop r1.appl_no r2.appl_no ∨ nullVsPop r1.appl_type r2.appl_type
        ∨ nullVsPop r1.ingredient r2.ingredient ∨ nullVsPop r1.dosage r2.dosage
        ∨ nullVsPop r1.form r2.form ∨ nullVsPop r1.route r2.route
        ∨ nullVsPop r1.trade_name r2.trade_name ∨ nullVsPop r1.applicant r2.applicant
        ∨ nullVsPop r1.strength r2.strength ∨ nullVsPop r1.te_code r2.te_code
        ∨ nullVsPop r1.approval_date r2.approval_date ∨ nullVsPop r1.rld r2.rld
        ∨ nullVsPop r1.rs r2.rs ∨ nullVsPop r1.type r2.type
        ∨ nullVsPop r1.applicant_full_name r2.applicant_full_name
        ∨ nullVsPop r1.number_of_approvals r2.number_of_approvals) →
      productsDup r2 r1 = false
      ∧ remove_duplicates_table productsDup [(1, r1), (2, r2)]
          = [(1, r1), (2, r2)])
    ∧ (∀ r1 r2 : ExclusivityRow,
      (nullVsPop r1.appl_no r2.appl_no ∨ nullVsPop r1.appl_type r2.appl_type
        ∨ nullVsPop r1.ingredient r2.ingredient ∨ nullVsPop r1.dosage r2.dosage
        ∨ nullVsPop r1.form r2.form ∨ nullVsPop r1.route r2.route
        ∨ nullVsPop r1.trade_name r2.trade_name ∨ nullVsPop r1.strength r2.strength
        ∨ nullVsPop r1.exclusivity_code r2.exclusivity_code
        ∨ nullVsPop r1.exclusivity_date r2.exclusivity_date) →
      exclusivityDup r2 r1 = false
      ∧ remove_duplicates_table exclusivityDup [(1, r1), (2, r2)]
          = [(1, r1), (2, r2)])
    ∧ (∀ r1 r2 : PatentRow,
      (nullVsPop r1.appl_no r2.appl_no ∨ nullVsPop r1.appl_type r2.appl_type
        ∨ nullVsPop r1.ingredient r2.ingredient ∨ nullVsPop r1.dosage r2.dosage
        ∨ nullVsPop r1.form r2.form ∨ nullVsPop r1.route r2.route
        ∨ nullVsPop r1.trade_name r2.trade_name ∨ nullVsPop r1.applicant r2.applicant
        ∨ nullVsPop r1.strength r2.strength ∨ nullVsPop r1.patent_no r2.patent_no
        ∨ nullVsPop r1.patent_expire_date_text r2.patent_expire_date_text
        ∨ nullVsPop r1.drug_substance_flag r2.drug_substance_flag
        ∨ nullVsPop r1.drug_product_flag r2.drug_product_flag
        ∨ nullVsPop r1.patent_use_code r2.patent_use_code
        ∨ nullVsPop r1.submission_date r2.submission_date) →
      patentDup r2 r1 = false
      ∧ remove_duplicates_table patentDup [(1, r1), (2, r2)]
          = [(1, r1), (2, r2)]) := by
  refine ⟨?_, ?_, ?_⟩
  · intro r1 r2 h
    have hdup : productsDup r2 r1 = false := by
      rcases h with h|h|h|h|h|h|h|h|h|h|h|h|h|h|h|h
      · simp [productsDup, (sqlEq_false_of_nvp h).2]
      · simp [productsDup, (nsEq_false_of_nvp h).2]
      · simp [productsDup, (sqlEq_false_of_nvp h).2]
      · simp [productsDup, (nsEq_false_of_nvp h).2]
      · simp [productsDup, (nsEq_false_of_nvp h).2]
      · simp [productsDup, (nsEq_false_of_nvp h).2]
      · simp [productsDup, (nsEq_false_of_nvp h).2]
      · simp [productsDup, (nsEq_false_of_nvp h).2]
      · simp [productsDup, (nsEq_false_of_nvp h).2]
      · simp [productsDup, (nsEq_false_of_nvp h).2]
      · simp [productsDup, (nsEq_false_of_nvp h).2]
      · simp [productsDup, (nsEq_false_of_nvp h).2]
      · simp [productsDup, (nsEq_false_of_nvp h).2]
      · simp [productsDup, (nsEq_false_of_nvp h).2]
      · simp [productsDup, (nsEq_false_of_nvp h).2]
      · simp [productsDup, (nsEq_false_of_nvp h).2]
    exact ⟨hdup, by simp [remove_duplicates_table, hdup]⟩
  · intro r1 r2 h
    have hdup : exclusivityDup r2 r1 = false := by
      rcases h with h|h|h|h|h|h|h|h|h|h
      · simp [exclusivityDup, (sqlEq_false_of_nvp h).2]
      · simp [exclusivityDup, (nsEq_false_of_nvp h).2]
      · simp [exclusivityDup, (sqlEq_false_of_nvp h).2]
      · simp [exclusivityDup, (nsEq_false_of_nvp h).2]
      · simp [exclusivityDup, (nsEq_false_of_nvp h).2]
      · simp [exclusivityDup, (nsEq_false_of_nvp h).2]
      · simp [exclusivityDup, (nsEq_false_of_nvp h).2]
      · simp [exclusivityDup, (nsEq_false_of_nvp h).2]
      · simp [exclusivityDup, (nsEq_false_of_nvp h).2]
      · simp [exclusivityDup, (nsEq_false_of_nvp h).2]
    exact ⟨hdup, by simp [remove_duplicates_table, hdup]⟩
  · intro r1 r2 h
    have hdup : patentDup r2 r1 = false := by
      rcases h with h|h|h|h|h|h|h|h|h|h|h|h|h|h|h
      · simp [patentDup, (sqlEq_false_of_nvp h).2]
      · simp [patentDup, (nsEq_false_of_nvp h).2]
      · simp [patentDup, (sqlEq_false_of_nvp h).2]
      · simp [patentDup, (nsEq_false_of_nvp h).2]
      · simp [patentDup, (nsEq_false_of_nvp h).2]
      · simp [patentDup, (nsEq_false_of_nvp h).2]
      · simp [patentDup, (nsEq_false_of_nvp h).2]
      · simp [patentDup, (nsEq_false_of_nvp h).2]
      · simp [patentDup, (nsEq_false_of_nvp h).2]
      · simp [patentDup, (nsEq_false_of_nvp h).2]
      · simp [patentDup, (nsEq_false_of_nvp h).2]
      · simp [patentDup, (nsEq_false_of_nvp h).2]
      · simp [patentDup, (nsEq_false_of_nvp h).2]
      · simp [patentDup, (nsEq_false_of_nvp h).2]
      · simp [patentDup, (nsEq_false_of_nvp h).2]
    exact ⟨hdup, by simp [remove_duplicates_table, hdup]⟩

/-- Claim C2 counterexample: rows identical except `te_code` NULL vs `"AB"`
are not collapsed — the dedup DELETE keeps both. -/
theorem claim2_counterexample :
    productsDup c2RowPop c2RowNull = false
    ∧ remove_duplicates_table productsDup [(1, c2RowNull), (2, c2RowPop)]
        = [(1, c2RowNull), (2, c2RowPop)] := by
  constructor
  · decide
  · decide

theorem claim2_witness :
    productsDup c2RowPop c2RowNull = false
    ∧ remove_duplicates_table productsDup [(1, c2RowNull), (2, c2RowPop)]
        = [(1, c2RowNull), (2, c2RowPop)] :=
  claim2_theorem.1 c2RowNull c2RowPop
    (Or.inr (Or.inr (Or.inr (Or.inr (Or.inr (Or.inr (Or.inr (Or.inr (Or.inr
      (Or.inl (Or.inl ⟨rfl, by decide⟩)))))))))))

/-- Claim C3 (amended): the products, patents and sales loaders accumulate
rows and commit exactly the claimed batches — every committed batch is
non-empty and at most 1000 rows, concatenating the batches yields all
normalized rows in order, and 2500 source rows commit as 1000/1000/500.
The exclusivity loader, whose loop lacks the batch-size check, instead
commits the entire normalized source as one single batch (a zero-row batch
when the source is empty). -/
theorem claim3_theorem :
    (∀ rows : List ProductSrcRow,
        (load_products_commits rows).flatten = rows.map normalizeProductRow
        ∧ ∀ b ∈ load_products_commits rows, b ≠ [] ∧ b.length ≤ 1000)
    ∧ (∀ rows : List PatentSrcRow,
        (load_patents_commits rows).flatten = rows.map normalizePatentRow
        ∧ ∀ b ∈ load_patents_commits rows, b ≠ [] ∧ b.length ≤ 1000)
    ∧ (∀ (lookup : List ((String × String) × String)) (rows : List SalesSrcRow),
        (load_sales_commits lookup rows).flatten = load_sales_rows lookup rows
        ∧ ∀ b ∈ load_sales_commits lookup rows, b ≠ [] ∧ b.length ≤ 1000)
    ∧ (∀ rows : List ExclusivitySrcRow,
        load_exclusivity_commits rows = [rows.map normalizeExclusivityRow])
    ∧ (load_products_commits (List.replicate 2500 productSrcSample)).map List.length
        = [1000, 1000, 500] := by
  refine ⟨?_, ?_, ?_, ?_, ?_⟩
  · intro rows
    exact ⟨commitBatches_join 1000 _,
      fun b hb => ⟨commitBatchesAux_ne_nil 1000 _ [] b hb,
        commitBatchesAux_le 1000 _ [] (by norm_num) b hb⟩⟩
  · intro rows
    exact ⟨commitBatches_join 1000 _,
      fun b hb => ⟨commitBatchesAux_ne_nil 1000 _ [] b hb,
        commitBatchesAux_le 1000 _ [] (by norm_num) b hb⟩⟩
  · intro lookup rows
    exact ⟨commitBatches_join 1000 _,
      fun b hb => ⟨commitBatchesAux_ne_nil 1000 _ [] b hb,
        commitBatchesAux_le 1000 _ [] (by norm_num) b hb⟩⟩
  · intro rows
    rfl
  · rw [load_products_commits, commitBatches, commitBatchesAux_lengths]
    simp only [List.length_map, List.length_replicate, List.length_nil]
    exact batchSizes_2500

/-- Claim C3 counterexample: 2500 exclusivity source rows are committed as a
single batch of 2500 rows, not as three batches of 1000/1000/500. -/
theorem claim3_counterexample :
    (load_exclusivity_commits (List.replicate 2500 exclusivitySrcSample)).map List.length
        = [2500]
    ∧ (load_exclusivity_commits (List.replicate 2500 exclusivitySrcSample)).map List.length
        ≠ [1000, 1000, 500] := by
  have h : (load_exclusivity_commits (List.replicate 2500 exclusivitySrcSample)).map List.length
      = [2500] := by
    simp only [load_exclusivity_commits, List.map_cons, List.map_nil, List.length_map,
      List.length_replicate]
  refine ⟨h, ?_⟩
  rw [h]
  decide

theorem claim3_witness :
    load_exclusivity_commits ([] : List ExclusivitySrcRow) = [[]] := by
  have h := claim3_theorem.2.2.2.1 ([] : List ExclusivitySrcRow)
  simpa using h

/-- Claim C4 (amended): an unreadable extract aborts the run before the
failing loader inserts any row, but rows committed by earlier completed
loaders remain: when the identifier extract (read first) is unreadable
nothing is committed, and when a later extract is unreadable every earlier
loader has already committed its full source while the failing table and all
later ones stay empty. -/
theorem claim4_theorem :
    ∀ e : Extracts,
      (e.ndc = none → runPipeline e = ⟨0, 0, 0, 0⟩)
      ∧ (∀ n, e.ndc = some n → e.products = none → runPipeline e = ⟨0, 0, 0, 0⟩)
      ∧ (∀ n ps, e.ndc = some n → e.products = some ps → e.exclusivity = none →
          runPipeline e = ⟨ps.length, 0, 0, 0⟩)
      ∧ (∀ n ps es, e.ndc = some n → e.products = some ps →
          e.exclusivity = some es → e.patents = none →
          runPipeline e = ⟨ps.length, es.length, 0, 0⟩)
      ∧ (∀ n ps es ts, e.ndc = some n → e.products = some ps →
          e.exclusivity = some es → e.patents = some ts → e.sales = none →
          runPipeline e = ⟨ps.length, es.length, ts.length, 0⟩) := by
  intro e
  refine ⟨?_, ?_, ?_, ?_, ?_⟩
  · intro h
    simp [runPipeline, h]
  · intro n h1 h2
    simp [runPipeline, h1, h2]
  · intro n ps h1 h2 h3
    simp [runPipeline, h1, h2, h3, load_products_commits_sum]
  · intro n ps es h1 h2 h3 h4
    simp [runPipeline, h1, h2, h3, h4, load_products_commits_sum,
      load_exclusivity_commits_sum]
  · intro n ps es ts h1 h2 h3 h4 h5
    simp [runPipeline, h1, h2, h3, h4, h5, load_products_commits_sum,
      load_exclusivity_commits_sum, load_patents_commits_sum]

/-- Claim C4 counterexample: a run whose sales extract is unreadable still
commits the one products row — contradicting "no rows are committed to any
table" for runs with any unreadable extract. -/
theorem claim4_counterexample :
    runPipeline cexExtracts = ⟨1, 0, 0, 0⟩ ∧ cexExtracts.sales = none := by
  constructor
  · decide
  · rfl

theorem claim4_witness :
    runPipeline cexExtracts = ⟨1, 0, 0, 0⟩ := by
  have h := (claim4_theorem cexExtracts).2.2.2.2 [] [productSrcSample] [] []
    rfl rfl rfl rfl rfl
  simpa using h

/-- Claim C5 (confirmed): after the cross-reference build, looking up any
key yields exactly the first application number offered for that key in row
order — rows whose codes zero-pad to empty or whose application number is
blank after trimming offer nothing — and the mapping holds at most one entry
per key. -/
theorem claim5_theorem :
    ∀ (rows : List NdcRow) (k : String × String),
      lookupFind (build_ndc_lookup rows) k = specFirstApplFor rows k
      ∧ ((build_ndc_lookup rows).map Prod.fst).Nodup := by
  intro rows k
  refine ⟨?_, build_ndc_keys_nodup rows⟩
  have h := build_ndc_aux rows [] (by simp) k
  simpa [build_ndc_lookup, lookupFind] using h

/-- Claim C7 (amended): the approval-count UPDATE joins each products row to
its group with plain `=` on `ingredient` and `dosage`, so exactly the rows
with both columns non-null receive their group's distinct application-number
count, while rows with a null ingredient or dosage are left unchanged (their
count stays NULL even though GROUP BY forms a group for them). -/
theorem claim7_theorem :
    ∀ (tbl : List ProductRow) (i : Nat) (r : ProductRow), tbl.get? i = some r →
      ((populate_number_of_product_approvals tbl).length = tbl.length
       ∧ (∀ a d, r.ingredient = some a → r.dosage = some d →
            (populate_number_of_product_approvals tbl).get? i =
              some { r with number_of_approvals := some (distinctApplCount tbl (some a) (some d)) })
       ∧ ((r.ingredient = none ∨ r.dosage = none) →
            (populate_number_of_product_approvals tbl).get? i = some r)) := by
  intro tbl i r hr
  refine ⟨by simp [populate_number_of_product_approvals], ?_, ?_⟩
  · intro a d ha hd
    rw [populate_number_of_product_approvals, List.get?_map, hr]
    simp [ha, hd]
  · intro hnull
    rw [populate_number_of_product_approvals, List.get?_map, hr]
    rcases hnull with h | h
    · simp [h]
    · cases hi : r.ingredient with
      | none => simp [hi]
      | some a => simp [hi, h]

/-- Claim C7 counterexample: a single products row with NULL ingredient
keeps a NULL `approval_count` after the pass, although its (NULL, "81MG")
group has one distinct application number — the claim promised every row
gets its group's count. -/
theorem claim7_counterexample :
    populate_number_of_product_approvals [c7NullRow] = [c7NullRow]
    ∧ c7NullRow.number_of_approvals = none
    ∧ distinctApplCount [c7NullRow] none (some "81MG") = 1 := by
  refine ⟨?_, rfl, ?_⟩
  · decide
  · decide

theorem claim7_witness :
    (populate_number_of_product_approvals aspirinTbl).get? 0 =
      some { aspirin1 with number_of_approvals := some 3 }
    ∧ (populate_number_of_product_approvals aspirinTbl).get? 3 =
      some { aspirin4 with number_of_approvals := some 1 } := by
  constructor
  · have h := ((claim7_theorem aspirinTbl 0 aspirin1 rfl).2.1) "ASPIRIN" "81MG" rfl rfl
    have hc : distinctApplCount aspirinTbl (some "ASPIRIN") (some "81MG") = 3 := by decide
    rw [hc] at h
    exact h
  · have h := ((claim7_theorem aspirinTbl 3 aspirin4 rfl).2.1) "ASPIRIN" "325MG" rfl rfl
    have hc : distinctApplCount aspirinTbl (some "ASPIRIN") (some "325MG") = 1 := by decide
    rw [hc] at h
    exact h

/-- Claim C8 (confirmed): every sales source row is loaded — the output has
one row per source row, in order — and whenever the normalized key is absent
from the cross-reference mapping, or either code normalizes to empty, the
loaded row's linking `appl_no` is NULL rather than the row being dropped or
an error raised. -/
theorem claim8_theorem :
    ∀ (lookup : List ((String × String) × String)) (rows : List SalesSrcRow)
      (i : Nat) (r : SalesSrcRow), rows.get? i = some r →
      ((load_sales_rows lookup rows).length = rows.length
       ∧ (load_sales_rows lookup rows).get? i = some (processSalesRow lookup r)
       ∧ ((match zero_pad (some r.labeler) 5, zero_pad (some r.product) 4 with
            | some l, some p => lookupFind lookup (l, p) = none
            | _, _ => True) →
          (processSalesRow lookup r).appl_no = none)) := by
  intro lookup rows i r hr
  refine ⟨by simp [load_sales_rows], ?_, ?_⟩
  · rw [load_sales_rows, List.get?_map, hr]
    rfl
  · intro hcond
    unfold processSalesRow
    dsimp only
    cases h5 : zero_pad (some r.labeler) 5 with
    | none => rfl
    | some l =>
        cases h4 : zero_pad (some r.product) 4 with
        | none => rfl
        | some p =>
            rw [h5, h4] at hcond
            exact hcond

theorem claim8_witness :
    (load_sales_rows [] [salesSrcSample]).get? 0
        = some (processSalesRow [] salesSrcSample)
    ∧ (processSalesRow [] salesSrcSample).appl_no = none := by
  have h := claim8_theorem [] [salesSrcSample] 0 salesSrcSample rfl
  exact ⟨h.2.1, h.2.2 rfl⟩

/-- Claim C9 (amended): every key in the cross-reference mapping, and every
key a sales row looks up, is built by `zero_pad`, so its labeler part has
length at least 5 and its product part length at least 4 (the exact widths
when the stripped code is no longer than the width, longer codes passing
through untruncated), and empty codes never participate. -/
theorem claim9_theorem :
    (∀ (rows : List NdcRow), ∀ e ∈ build_ndc_lookup rows,
        5 ≤ e.1.1.length ∧ 4 ≤ e.1.2.length ∧ e.1.1 ≠ "" ∧ e.1.2 ≠ "")
    ∧ (∀ (r : SalesSrcRow) (l p : String),
        zero_pad (some r.labeler) 5 = some l → zero_pad (some r.product) 4 = some p →
        5 ≤ l.length ∧ 4 ≤ p.length) := by
  constructor
  · intro rows e he
    have hcand : ∀ (r : NdcRow) (k : String × String) (v : String),
        ndcCandidate r = some (k, v) →
        5 ≤ k.1.length ∧ 4 ≤ k.2.length ∧ k.1 ≠ "" ∧ k.2 ≠ "" := by
      intro r k v hc
      obtain ⟨lc, pc⟩ := k
      obtain ⟨h5, h4, _, _⟩ := ndcCandidate_inv hc
      have a5 := zero_pad_some_length h5
      have a4 := zero_pad_some_length h4
      exact ⟨a5.1, a4.1, a5.2, a4.2⟩
    exact build_ndc_foldl_keys hcand rows [] (by simp) e he
  · intro r l p h5 h4
    exact ⟨(zero_pad_some_length h5).1, (zero_pad_some_length h4).1⟩

/-- Claim C9 counterexample: a labeler code of six digits participates as a
six-character key in the mapping and in matching, so join keys are not
"exactly 5 digits". -/
theorem claim9_counterexample :
    lookupFind (build_ndc_lookup [overlongNdcRow]) ("123456", "0001") = some "A"
    ∧ ("123456" : String).length ≠ 5 := by
  constructor
  · decide
  · decide

theorem claim9_witness :
    5 ≤ ("123456" : String).length ∧ 4 ≤ ("0001" : String).length
    ∧ ("123456" : String) ≠ "" ∧ ("0001" : String) ≠ "" := by
  have h := claim9_theorem.1 [overlongNdcRow] (("123456", "0001"), "A") (by decide)
  exact h

/-- Claim C10 (amended): `zero_pad` never truncates — on any input whose
stripped text is non-empty it returns `zfill` of the stripped text, whose
length is the maximum of the width and the stripped length; a stripped text
at least as long as the width is returned unchanged.  When padding occurs the
zeros are inserted after a leading `+`/`-` sign rather than strictly in front
of the whole text. -/
theorem claim10_theorem :
    ∀ (s : String) (w : Nat), pyStrip s ≠ "" →
      zero_pad (some s) w = some (zfill (pyStrip s) w)
      ∧ (zfill (pyStrip s) w).length = max w (pyStrip s).length
      ∧ (w ≤ (pyStrip s).length → zfill (pyStrip s) w = pyStrip s) := by
  intro s w hs
  refine ⟨?_, zfill_length _ _, ?_⟩
  · unfold zero_pad
    simp [hs]
  · intro hw
    unfold zfill
    rw [if_pos hw]

/-- Claim C10 counterexample: on `"-12"` with width 5 the zeros go after the
sign (`"-0012"`), not in front of the trimmed text (`"00-12"`), refuting "the
result is the trimmed text left-padded with zeros". -/
theorem claim10_counterexample :
    zero_pad (some "-12") 5 = some "-0012"
    ∧ zero_pad (some "-12") 5 ≠ some ("00" ++ "-12") := by
  constructor
  · decide
  · decide

theorem claim10_witness :
    zero_pad (some " 123456 ") 5 = some (zfill (pyStrip " 123456 ") 5)
    ∧ (zfill (pyStrip " 123456 ") 5).length = max 5 (pyStrip " 123456 ").length
    ∧ (5 ≤ (pyStrip " 123456 ").length → zfill (pyStrip " 123456 ") 5 = pyStrip " 123456 ") :=
  claim10_theorem " 123456 " 5 (by decide)

theorem parse2or1_pos {maxv : Nat} {cs : List Char} {n : Nat} {rest : List Char}
    (h : parse2or1 maxv cs = some (n, rest)) : 1 ≤ n := by
  cases cs with
  | nil => simp [parse2or1] at h
  | cons c1 tail =>
      cases tail with
      | nil =>
          simp only [parse2or1] at h
          split at h
          · rename_i hcond
            simp only [Bool.and_eq_true, decide_eq_true_eq] at hcond
            simp only [Option.some.injEq, Prod.mk.injEq] at h
            obtain ⟨h1, _⟩ := h
            omega
          · exact absurd h (by simp)
      | cons c2 tail2 =>
          simp only [parse2or1] at h
          split at h
          · rename_i hcond
            simp only [Bool.and_eq_true, decide_eq_true_eq] at hcond
            simp only [Option.some.injEq, Prod.mk.injEq] at h
            obtain ⟨h1, _⟩ := h
            omega
          · split at h
            · rename_i hcond
              simp only [Bool.and_eq_true, decide_eq_true_eq] at hcond
              simp only [Option.some.injEq, Prod.mk.injEq] at h
              obtain ⟨h1, _⟩ := h
              omega
            · exact absurd h (by simp)

theorem strptimeYMD_bounds {cs : List Char} {y m d : Nat}
    (h : strptimeYMD cs = some (y, m, d)) : 1 ≤ m ∧ 1 ≤ d := by
  unfold strptimeYMD at h
  split at h
  · split at h
    · split at h <;> try exact Option.noConfusion h
      rename_i m' rest2 heq12
      split at h <;> try exact Option.noConfusion h
      rename_i d' heq31
      simp only [Option.some.injEq, Prod.mk.injEq] at h
      obtain ⟨_, hm, hd⟩ := h
      have h12 := parse2or1_pos heq12
      have h31 := parse2or1_pos heq31
      omega
    · exact Option.noConfusion h
  · exact Option.noConfusion h

theorem parse_date_some_inv {v : Option String} {d : Date}
    (h : parse_date v = some d) :
    1 ≤ d.year ∧ 1 ≤ d.month ∧ 1 ≤ d.day ∧ d.day ≤ daysInMonth d.year d.month := by
  cases v with
  | none => simp [parse_date] at h
  | some s =>
      simp only [parse_date] at h
      split at h
      · exact Option.noConfusion h
      · split at h <;> try exact Option.noConfusion h
        rename_i y' m' d' heq
        split at h
        · rename_i hcond
          simp only [Option.some.injEq] at h
          subst h
          have hb := strptimeYMD_bounds heq
          exact ⟨hcond.1, hb.1, hb.2, hcond.2⟩
        · exact Option.noConfusion h

/-- Claim C6 (amended): the four field normalizers are total — on every
input they return a value, `None` on malformed or blank input, never an
error.  `parse_date` accepts the dash-separated format with a four-digit
year and one-or-two-digit month and day denoting a valid calendar date —
so `YYYY-MM-DD` and also unpadded variants such as `2024-1-2` — and yields
null on everything else; `zero_pad` returns null on empty or all-whitespace
input and `"00123"` for `"123"` at width 5. -/
theorem claim6_theorem :
    (∀ (v : Option String) (d : Date), parse_date v = some d →
        1 ≤ d.year ∧ 1 ≤ d.month ∧ 1 ≤ d.day ∧ d.day ≤ daysInMonth d.year d.month)
    ∧ (∀ v, parse_date v = none ∨ ∃ d, parse_date v = some d)
    ∧ (∀ v, parse_decimal v = none ∨ ∃ s, parse_decimal v = some s)
    ∧ (∀ v, parse_int v = none ∨ ∃ n, parse_int v = some n)
    ∧ (∀ v w, zero_pad v w = none ∨ ∃ s, zero_pad v w = some s)
    ∧ parse_date (some "2024-01-15") = some ⟨2024, 1, 15⟩
    ∧ parse_date (some "2024-1-2") = some ⟨2024, 1, 2⟩
    ∧ parse_date (some "01/15/2024") = none
    ∧ parse_date (some "2024-02-30") = none
    ∧ parse_date (some "2024-13-01") = none
    ∧ parse_date (some "garbage") = none
    ∧ parse_date (some "   ") = none
    ∧ parse_date none = none
    ∧ parse_decimal (some "") = none
    ∧ parse_decimal (some "abc") = none
    ∧ parse_decimal (some "$1,234.56") = some "1234.56"
    ∧ parse_int (some "1,234") = some 1234
    ∧ parse_int (some "abc") = none
    ∧ parse_int (some "") = none
    ∧ zero_pad (some "123") 5 = some "00123"
    ∧ zero_pad (some "   ") 5 = none
    ∧ zero_pad (some "") 5 = none
    ∧ zero_pad none 5 = none := by
  refine ⟨fun v d h => parse_date_some_inv h, ?_, ?_, ?_, ?_, ?_⟩
  · intro v
    cases h : parse_date v with
    | none => exact Or.inl rfl
    | some d => exact Or.inr ⟨d, rfl⟩
  · intro v
    cases h : parse_decimal v with
    | none => exact Or.inl rfl
    | some s => exact Or.inr ⟨s, rfl⟩
  · intro v
    cases h : parse_int v with
    | none => exact Or.inl rfl
    | some n => exact Or.inr ⟨n, rfl⟩
  · intro v w
    cases h : zero_pad v w with
    | none => exact Or.inl rfl
    | some s => exact Or.inr ⟨s, rfl⟩
  · decide

/-- Claim C6 counterexample: `"2024-1-2"` is not in `YYYY-MM-DD` form (its
month and day are single digits), yet `parse_date` accepts it — `strptime`'s
`%m` and `%d` match one- or two-digit fields. -/
theorem claim6_counterexample :
    parse_date (some "2024-1-2") = some ⟨2024, 1, 2⟩ := by decide

theorem claim6_witness :
    1 ≤ (2024 : Nat) ∧ 1 ≤ (1 : Nat) ∧ 1 ≤ (15 : Nat)
    ∧ (15 : Nat) ≤ daysInMonth 2024 1 :=
  claim6_theorem.1 (some "2024-01-15") ⟨2024, 1, 15⟩ (by decide)

end DrugDB
